import Mathlib

/-!
Verification development for the context_pile web-resource processor.

The TypeScript route handlers are shallowly embedded here: strings are
modelled as lists of characters, the JavaScript string primitives used by
the handlers (startsWith, includes, replace-first, trim, padStart) are
reimplemented on that model, browser URL resolution is an abstract
parameter, and each handler body becomes a pure function from its request
data and the outcomes of its external calls to its response.
-/

namespace ContextPile

/-- Strings are modelled as lists of characters. -/
abbrev Str := List Char

/-! ## JavaScript string primitives used by the handlers -/

/-- Test whether the pattern p occurs at the start of s, the model of
JavaScript String.startsWith as used on resolved hrefs. -/
def strStarts : Str → Str → Bool
  | [], _ => true
  | _ :: _, [] => false
  | c :: p, d :: s => c == d && strStarts p s

/-- Test whether the pattern p occurs somewhere in s, the model of
JavaScript String.includes as used by the YouTube URL check, and the
occurrence test used to state placeholder facts. -/
def strHas (p : Str) : Str → Bool
  | [] => strStarts p []
  | c :: s => strStarts p (c :: s) || strHas p s

/-- Model of JavaScript String.replace with a plain string pattern: the
first occurrence of p in s is replaced by r; when p does not occur, s is
returned unchanged. -/
def replaceFirst (p r : Str) : Str → Str
  | [] => if p.isEmpty then r else []
  | c :: s =>
    if strStarts p (c :: s) then r ++ (c :: s).drop p.length
    else c :: replaceFirst p r s

/-- True when the pattern p matches at no position inside the first
a.length positions of a ++ b; used to state that the metadata text does
not itself produce an occurrence of the transcript placeholder. -/
def noMatchWithin (p : Str) : Str → Str → Bool
  | [], _ => true
  | c :: a, b => !strStarts p ((c :: a) ++ b) && noMatchWithin p a b

/-- ASCII model of the whitespace class removed by JavaScript
String.trim. -/
def jsWhitespace (c : Char) : Bool :=
  c == ' ' || c == '\t' || c == '\n' || c == '\r' || c == '\x0b' || c == '\x0c'

/-- Model of JavaScript String.trim: drop whitespace from both ends. -/
def jsTrim (s : Str) : Str :=
  ((s.dropWhile jsWhitespace).reverse.dropWhile jsWhitespace).reverse

/-- Decimal digit characters of a natural number, with a structural fuel
argument (the fuel n + 1 always suffices). -/
def natDigitsAux : Nat → Nat → Str
  | _, 0 => []
  | n, fuel + 1 =>
    if n < 10 then [Char.ofNat (48 + n)]
    else natDigitsAux (n / 10) fuel ++ [Char.ofNat (48 + n % 10)]

/-- Decimal representation of a natural number, the model of
Number.prototype.toString on the nonnegative integers produced by the
timestamp arithmetic. -/
def natDigits (n : Nat) : Str := natDigitsAux n (n + 1)

/-- Model of JavaScript String.padStart(2, forty-eight): left-pad with
zero characters to length two. -/
def padStart2 (s : Str) : Str :=
  if s.length < 2 then List.replicate (2 - s.length) '0' ++ s else s

/-! ## URL classification -/

/-- The handlers classify a URL as a video exactly when it contains
youtube.com or youtu.be as a substring. -/
def isYoutubeUrl (u : Str) : Bool :=
  strHas "youtube.com".data u || strHas "youtu.be".data u

/-! ## Two-phase video pipeline (processor POST, YouTube branch, and the
transcript continuation handler) -/

/-- Metadata returned by the YouTube metadata resolver. -/
structure VideoMeta where
  title : Str
  channel : Str
  description : Str
deriving DecidableEq

/-- The literal transcript placeholder the metadata phase appends to the
Markdown body. -/
def transcriptPlaceholder : Str := "_Fetching transcript..._".data

/-- Title chosen by the YouTube branch: the resolver title when truthy,
otherwise the fallback built from the URL. -/
def resolvedTitle (meta : Option VideoMeta) (url : Str) : Str :=
  match meta with
  | some m => if m.title = [] then "YouTube Transcript: ".data ++ url else m.title
  | none => "YouTube Transcript: ".data ++ url

/-- Channel chosen by the YouTube branch: the resolver channel when
truthy, otherwise the YouTube default. -/
def resolvedChannel (meta : Option VideoMeta) : Str :=
  match meta with
  | some m => if m.channel = [] then "YouTube".data else m.channel
  | none => "YouTube".data

/-- Description chosen by the YouTube branch: empty when the resolver
returned null. -/
def resolvedDesc (meta : Option VideoMeta) : Str :=
  match meta with
  | some m => m.description
  | none => []

/-- Metadata-phase Markdown header: everything the YouTube branch writes
before the placeholder (title line, channel and source line, and the
blockquoted description when it is nonempty). -/
def videoHeader (title siteName url desc : Str) : Str :=
  "# ".data ++ title ++ "\n".data
    ++ "**Channel:** ".data ++ siteName ++ " | **Source:** [YouTube](".data ++ url
    ++ ")\n\n".data
    ++ (if desc = [] then [] else "> ".data ++ desc ++ "\n\n".data)

/-- Output of the metadata phase relevant to the two-phase flow. -/
structure VideoPhaseOne where
  markdown : Str
  needsTranscript : Bool
deriving DecidableEq

/-- Metadata phase of the two-phase video flow: build the header from the
resolver result, append the placeholder, and mark the document as
awaiting its transcript. -/
def videoMetadataPhase (meta : Option VideoMeta) (url : Str) : VideoPhaseOne :=
  { markdown :=
      videoHeader (resolvedTitle meta url) (resolvedChannel meta) url (resolvedDesc meta)
        ++ transcriptPlaceholder
    needsTranscript := true }

/-- One timed caption segment with its offset in milliseconds. -/
structure TranscriptItem where
  offset : Nat
  text : Str
deriving DecidableEq

/-- Minutes field of a rendered timestamp: floor of offset / 1000 / 60. -/
def transcriptMinutes (offset : Nat) : Nat := offset / 1000 / 60

/-- Seconds field of a rendered timestamp: floor of (offset / 1000) mod
60; on natural-number offsets this agrees with the floating-point
computation in the handler. -/
def transcriptSeconds (offset : Nat) : Nat := offset / 1000 % 60

/-- Rendered timestamp: minutes, a colon, and the seconds zero-padded to
two digits. -/
def transcriptStamp (offset : Nat) : Str :=
  natDigits (transcriptMinutes offset) ++ ":".data
    ++ padStart2 (natDigits (transcriptSeconds offset))

/-- One rendered transcript line in the Markdown block. -/
def transcriptLine (item : TranscriptItem) : Str :=
  "**".data ++ transcriptStamp item.offset ++ "** - ".data ++ item.text ++ "\n\n".data

/-- Markdown block built by the transcript continuation: an error note
when the fetch returned null (timeout, network failure, or captions
disabled), otherwise a Transcript section with one timestamped line per
segment. -/
def transcriptBlock (transcript : Option (List TranscriptItem)) : Str :=
  match transcript with
  | none => "\n\n**Error:** Could not fetch transcript (Captions might be disabled)\n".data
  | some items =>
    "\n\n## Transcript\n\n".data
      ++ items.foldl (fun acc it => acc ++ transcriptLine it) []

/-- Transcript-continuation update of the stored Markdown: remove the
first occurrence of the placeholder (no change when it is absent) and
append the freshly built block. -/
def updateMarkdown (current block : Str) : Str :=
  replaceFirst transcriptPlaceholder [] current ++ block

/-! ## Structured extraction (links, images, infobox) -/

/-- One anchor element matched by the link query: its href attribute text
and its text content. -/
structure Anchor where
  href : Str
  text : Str
deriving DecidableEq

/-- One entry of the extracted links sequence. -/
structure LinkEntry where
  text : Str
  href : Str
deriving DecidableEq

/-- Link extraction loop over the anchors in document order, carrying the
collected entries and the set of hrefs already seen; resolve models the
URL constructor against the page base URL, returning none when that
constructor would throw. -/
def extractLinksGo (resolve : Str → Option Str) :
    List Anchor → List LinkEntry → List Str → List LinkEntry
  | [], links, _ => links
  | a :: rest, links, seen =>
    if links.length ≥ 100 then links
    else if a.href = [] then extractLinksGo resolve rest links seen
    else
      match resolve a.href with
      | none => extractLinksGo resolve rest links seen
      | some abs =>
        if strStarts "#".data abs = true ∨ abs ∈ seen then
          extractLinksGo resolve rest links seen
        else
          if jsTrim a.text ≠ [] ∧ abs ≠ [] then
            extractLinksGo resolve rest (links ++ [⟨jsTrim a.text, abs⟩]) (abs :: seen)
          else extractLinksGo resolve rest links (abs :: seen)

/-- Link extraction: at most 100 entries, deduplicated by resolved
absolute URL, collected in document order. -/
def extractLinks (resolve : Str → Option Str) (anchors : List Anchor) : List LinkEntry :=
  extractLinksGo resolve anchors [] []

/-- One img element matched by the image query: its src attribute text
and its optional alt attribute. -/
structure ImgElem where
  src : Str
  alt : Option Str
deriving DecidableEq

/-- One entry of the extracted images sequence. -/
structure ImageEntry where
  src : Str
  alt : Str
deriving DecidableEq

/-- Image extraction loop over the img elements in document order. -/
def extractImagesGo (resolve : Str → Option Str) :
    List ImgElem → List ImageEntry → List ImageEntry
  | [], images => images
  | i :: rest, images =>
    if i.src = [] then extractImagesGo resolve rest images
    else
      match resolve i.src with
      | none => extractImagesGo resolve rest images
      | some abs => extractImagesGo resolve rest (images ++ [⟨abs, i.alt.getD []⟩])

/-- Image extraction: every resolvable src paired with its alt text. -/
def extractImages (resolve : Str → Option Str) (imgs : List ImgElem) : List ImageEntry :=
  extractImagesGo resolve imgs []

/-- The entry a single img element contributes, if any: skipped when the
src is empty or unresolvable, otherwise the resolved src with the alt
defaulted to the empty string. -/
def imageEntry (resolve : Str → Option Str) (i : ImgElem) : Option ImageEntry :=
  if i.src = [] then none
  else
    match resolve i.src with
    | none => none
    | some abs => some ⟨abs, i.alt.getD []⟩

/-- One table row of the first infobox element: the text content of its
first header cell and of its first data cell, when those cells exist. -/
structure InfoRow where
  th : Option Str
  td : Option Str
deriving DecidableEq

/-- The pair a single infobox row contributes, if any: both cells must
exist and both trimmed texts must be nonempty. -/
def rowPair (r : InfoRow) : Option (Str × Str) :=
  match r.th, r.td with
  | some th, some td =>
    if jsTrim th ≠ [] ∧ jsTrim td ≠ [] then some (jsTrim th, jsTrim td) else none
  | _, _ => none

/-- JavaScript object property assignment on a string-keyed map modelled
as an association list: an existing key keeps its position and gets the
new value, a new key is appended. -/
def objInsert (m : List (Str × Str)) (k v : Str) : List (Str × Str) :=
  if k ∈ m.map Prod.fst then m.map (fun e => if e.1 = k then (k, v) else e)
  else m ++ [(k, v)]

/-- One step of the infobox row loop: assign the pair the row contributes
into the map, or leave the map unchanged when the row is skipped. -/
def infoboxStep (m : List (Str × Str)) (r : InfoRow) : List (Str × Str) :=
  match rowPair r with
  | some kv => objInsert m kv.1 kv.2
  | none => m

/-- Infobox extraction over the rows of the first infobox table, in
document order. -/
def infoboxData (rows : List InfoRow) : List (Str × Str) :=
  rows.foldl infoboxStep []

/-! ## Markdown serializer image rule -/

/-- Replacement function of the custom Turndown image rule: read the alt
and src attributes with the JS or-empty default, emit an image token only
when the src is nonempty. -/
def imgRuleReplacement (alt src : Option Str) : Str :=
  if src.getD [] ≠ [] then
    "![".data ++ alt.getD [] ++ "](".data ++ src.getD [] ++ ")".data
  else []

/-! ## Handler control flow -/

/-- The authenticated caller, as far as the handlers inspect it. -/
structure UserCtx where
  isPro : Bool
deriving DecidableEq

/-- Result of the readability parse, as far as the handlers inspect it. -/
structure PageArticle where
  title : Str
  content : Str
  textContent : Str
  siteName : Str
deriving DecidableEq

/-- Response summary of a handler: HTTP status and whether the
persistence create call was reached. -/
structure HandlerResult where
  status : Nat
  createCalled : Bool
  warning : Bool
deriving DecidableEq

/-- Request context of the authenticated processor handler: the caller,
their stored document count, the url field of the body, and the outcomes
of the external calls the handler makes. -/
structure ProcessorCtx where
  user : Option UserCtx
  docCount : Nat
  url : Option Str
  ytThrew : Bool
  fetchFailed : Bool
  article : Option PageArticle
  dbCreateOk : Bool
deriving DecidableEq

/-- Control flow of the authenticated processor POST handler: auth check,
free-tier limit, body validation, then either the YouTube metadata branch
or the web scraper branch, and finally the persistence call whose failure
degrades to a warning. -/
def part001POST (c : ProcessorCtx) : HandlerResult :=
  match c.user with
  | none => ⟨401, false, false⟩
  | some u =>
    if u.isPro = false ∧ c.docCount ≥ 20 then ⟨403, false, false⟩
    else
      match c.url with
      | none => ⟨400, false, false⟩
      | some url =>
        if url = [] then ⟨400, false, false⟩
        else if isYoutubeUrl url = true then
          if c.ytThrew then ⟨422, false, false⟩
          else ⟨200, true, !c.dbCreateOk⟩
        else if c.fetchFailed then ⟨422, false, false⟩
        else
          match c.article with
          | none => ⟨422, false, false⟩
          | some a =>
            if a.content = [] then ⟨422, false, false⟩
            else ⟨200, true, !c.dbCreateOk⟩

/-- Outcome of the request validation prologue of a handler. -/
inductive ReqCheck where
  | reject (status : Nat) (msg : Str)
  | accepted
deriving DecidableEq

/-- Validation prologue of the process handler: missing or empty url is a
400, a url the URL constructor rejects (parseOk false) is a 400 with the
invalid-format message, anything else proceeds to the fetch. -/
def processCheck (parseOk : Str → Bool) (url : Option Str) : ReqCheck :=
  match url with
  | none => .reject 400 "URL is required".data
  | some u =>
    if u = [] then .reject 400 "URL is required".data
    else if parseOk u then .accepted
    else .reject 400 "Invalid URL format".data

/-- Validation prologue of the unauthenticated processor handler: only
the presence of the url field is checked, no URL parse is attempted. -/
def processorCheck (url : Option Str) : ReqCheck :=
  match url with
  | none => .reject 400 "URL is required".data
  | some u =>
    if u = [] then .reject 400 "URL is required".data else .accepted

/-- Status of the unauthenticated processor POST handler given the url
field and the outcomes of its external calls. -/
def processorPOST (url : Option Str) (ytThrew fetchFailed : Bool)
    (article : Option PageArticle) : Nat :=
  match url with
  | none => 400
  | some u =>
    if u = [] then 400
    else if isYoutubeUrl u = true then
      if ytThrew then 422 else 200
    else if fetchFailed then 422
    else
      match article with
      | none => 422
      | some a => if a.content = [] then 422 else 200

/-- A resolver recording what the WHATWG URL constructor does to the
fragment-only href of the counterexample page: resolution against the base
https://example.com/page yields the absolutized base carrying the
fragment. -/
def exFragResolve (href : Str) : Option Str :=
  if href = "#section".data then some "https://example.com/page#section".data else none

/-! ## Helper lemmas on the string model -/

theorem strStarts_refl (p : Str) : strStarts p p = true := by
  induction p with
  | nil => rfl
  | cons c p ih => simp [strStarts, ih]

theorem strStarts_append {p a : Str} (b : Str) (h : strStarts p a = true) :
    strStarts p (a ++ b) = true := by
  induction a generalizing p with
  | nil =>
    cases p with
    | nil => simp [strStarts]
    | cons c p => simp [strStarts] at h
  | cons d a ih =>
    cases p with
    | nil => simp [strStarts]
    | cons c p =>
      simp [strStarts] at h ⊢
      exact ⟨h.1, ih h.2⟩

theorem strHas_of_starts {p s : Str} (h : strStarts p s = true) : strHas p s = true := by
  cases s with
  | nil => simpa [strHas] using h
  | cons c s => simp [strHas, h]

theorem strHas_self (p : Str) : strHas p p = true :=
  strHas_of_starts (strStarts_refl p)

theorem strHas_append_left {p a : Str} (b : Str) (h : strHas p a = true) :
    strHas p (a ++ b) = true := by
  induction a with
  | nil =>
    cases p with
    | nil =>
      cases b with
      | nil => simp [strHas, strStarts]
      | cons c s => simp [strHas, strStarts]
    | cons c p => simp [strHas, strStarts] at h
  | cons d a ih =>
    simp only [strHas, Bool.or_eq_true] at h
    rcases h with h | h
    · have h' := strStarts_append b h
      rw [List.cons_append] at h'
      simp [strHas, h']
    · simp [strHas, ih h]

theorem strHas_append_right {p : Str} (a : Str) {b : Str} (h : strHas p b = true) :
    strHas p (a ++ b) = true := by
  induction a with
  | nil => simpa using h
  | cons d a ih => simp [strHas, ih]

theorem strHas_append_eq_false {p a b : Str}
    (h1 : noMatchWithin p a b = true) (h2 : strHas p b = false) :
    strHas p (a ++ b) = false := by
  induction a with
  | nil => simpa using h2
  | cons d a ih =>
    simp only [noMatchWithin, Bool.and_eq_true, Bool.not_eq_true', List.cons_append] at h1
    simp [strHas, h1.1, ih h1.2]

theorem replaceFirst_append_of_noMatch {p a : Str} (r : Str)
    (h : noMatchWithin p a p = true) :
    replaceFirst p r (a ++ p) = a ++ r := by
  induction a with
  | nil =>
    cases p with
    | nil => simp [replaceFirst]
    | cons c p => simp [replaceFirst, strStarts_refl]
  | cons d a ih =>
    simp only [noMatchWithin, Bool.and_eq_true, Bool.not_eq_true', List.cons_append] at h
    simp [replaceFirst, h.1, ih h.2]

theorem replaceFirst_of_not_has {p s : Str} (r : Str) (h : strHas p s = false) :
    replaceFirst p r s = s := by
  induction s with
  | nil =>
    cases p with
    | nil => simp [strHas, strStarts] at h
    | cons c p => simp [replaceFirst]
  | cons d s ih =>
    simp only [strHas, Bool.or_eq_false_iff] at h
    simp [replaceFirst, h.1, ih h.2]

/-! ## Helper lemmas on the extraction loops -/

theorem nodup_snoc {α : Type} {l : List α} {a : α} (h : l.Nodup) (ha : a ∉ l) :
    (l ++ [a]).Nodup := by
  simp [List.nodup_append, h, ha]

theorem extractLinksGo_inv (resolve : Str → Option Str) (anchors : List Anchor) :
    ∀ links seen, links.length ≤ 100 → (links.map LinkEntry.href).Nodup →
      (∀ l ∈ links, l.href ∈ seen) →
      (extractLinksGo resolve anchors links seen).length ≤ 100 ∧
        ((extractLinksGo resolve anchors links seen).map LinkEntry.href).Nodup := by
  induction anchors with
  | nil =>
    intro links seen h1 h2 _
    exact ⟨h1, h2⟩
  | cons a rest ih =>
    intro links seen h1 h2 h3
    simp only [extractLinksGo]
    split
    · exact ⟨h1, h2⟩
    · rename_i hcap
      split
      · exact ih links seen h1 h2 h3
      · split
        · exact ih links seen h1 h2 h3
        · rename_i abs hres
          split
          · exact ih links seen h1 h2 h3
          · rename_i hskip
            split
            · apply ih
              · simp only [List.length_append, List.length_cons, List.length_nil]
                omega
              · have habs : abs ∉ links.map LinkEntry.href := by
                  intro hmem
                  rcases List.mem_map.mp hmem with ⟨l, hl, hl2⟩
                  exact hskip (Or.inr (hl2 ▸ h3 l hl))
                simpa using nodup_snoc h2 habs
              · intro l hl
                rcases List.mem_append.mp hl with hl | hl
                · exact List.mem_cons_of_mem _ (h3 l hl)
                · simp only [List.mem_singleton] at hl
                  simp [hl]
            · apply ih links (abs :: seen) h1 h2
              intro l hl
              exact List.mem_cons_of_mem _ (h3 l hl)

theorem extractLinksGo_of_full (resolve : Str → Option Str) (anchors : List Anchor)
    (links : List LinkEntry) (seen : List Str) (h : links.length ≥ 100) :
    extractLinksGo resolve anchors links seen = links := by
  cases anchors with
  | nil => rfl
  | cons a rest => simp [extractLinksGo, h]

theorem extractLinksGo_skip (resolve : Str → Option Str) {a : Anchor}
    (h : resolve a.href = none) (rest : List Anchor) (links : List LinkEntry)
    (seen : List Str) :
    extractLinksGo resolve (a :: rest) links seen = extractLinksGo resolve rest links seen := by
  simp only [extractLinksGo]
  split
  · rename_i hcap
    rw [extractLinksGo_of_full resolve _ _ _ hcap]
  · split
    · rfl
    · split
      · rfl
      · rename_i abs hres
        rw [h] at hres
        cases hres

theorem extractLinksGo_skip_middle (resolve : Str → Option Str) {a : Anchor}
    (h : resolve a.href = none) (ys : List Anchor) :
    ∀ xs links seen,
      extractLinksGo resolve (xs ++ a :: ys) links seen =
        extractLinksGo resolve (xs ++ ys) links seen := by
  intro xs
  induction xs with
  | nil => intro links seen; exact extractLinksGo_skip resolve h ys links seen
  | cons x xs ih =>
    intro links seen
    rw [List.cons_append, List.cons_append]
    simp only [extractLinksGo]
    split
    · rfl
    · split
      · exact ih _ _
      · split
        · exact ih _ _
        · split
          · exact ih _ _
          · split
            · exact ih _ _
            · exact ih _ _

theorem extractImagesGo_eq (resolve : Str → Option Str) (imgs : List ImgElem) :
    ∀ acc, extractImagesGo resolve imgs acc = acc ++ imgs.filterMap (imageEntry resolve) := by
  induction imgs with
  | nil => intro acc; simp [extractImagesGo]
  | cons i rest ih =>
    intro acc
    simp only [extractImagesGo, List.filterMap_cons]
    by_cases hs : i.src = []
    · simp [imageEntry, hs, ih]
    · cases hres : resolve i.src with
      | none => simp [imageEntry, hs, hres, ih]
      | some abs => simp [imageEntry, hs, hres, ih]

/-! ## Helper lemmas on the infobox map -/

theorem objInsert_keys (m : List (Str × Str)) (k v k' : Str) :
    (k' ∈ (objInsert m k v).map Prod.fst) ↔ k' ∈ m.map Prod.fst ∨ k' = k := by
  unfold objInsert
  by_cases hk : k ∈ m.map Prod.fst
  · rw [if_pos hk]
    have hmap : (m.map fun e => if e.1 = k then (k, v) else e).map Prod.fst
        = m.map Prod.fst := by
      rw [List.map_map]
      apply List.map_congr_left
      intro e _
      by_cases he : e.1 = k
      · simp [he]
      · simp [he]
    rw [hmap]
    constructor
    · exact Or.inl
    · rintro (h | rfl)
      · exact h
      · exact hk
  · rw [if_neg hk]
    simp

theorem infobox_keys_aux (rows : List InfoRow) :
    ∀ acc k, (k ∈ (rows.foldl infoboxStep acc).map Prod.fst) ↔
      k ∈ acc.map Prod.fst ∨ ∃ r ∈ rows, ∃ v, rowPair r = some (k, v) := by
  induction rows with
  | nil => intro acc k; simp
  | cons r rest ih =>
    intro acc k
    rw [List.foldl_cons, ih]
    unfold infoboxStep
    cases hrp : rowPair r with
    | none =>
      constructor
      · rintro (h | ⟨r', hr', v, hv⟩)
        · exact Or.inl h
        · exact Or.inr ⟨r', List.mem_cons_of_mem _ hr', v, hv⟩
      · rintro (h | ⟨r', hr', v, hv⟩)
        · exact Or.inl h
        · rcases List.mem_cons.mp hr' with rfl | hr'
          · rw [hrp] at hv
            cases hv
          · exact Or.inr ⟨r', hr', v, hv⟩
    | some kv =>
      obtain ⟨k₀, v₀⟩ := kv
      rw [objInsert_keys]
      constructor
      · rintro ((h | rfl) | ⟨r', hr', v, hv⟩)
        · exact Or.inl h
        · exact Or.inr ⟨r, List.mem_cons_self _ _, v₀, hrp⟩
        · exact Or.inr ⟨r', List.mem_cons_of_mem _ hr', v, hv⟩
      · rintro (h | ⟨r', hr', v, hv⟩)
        · exact Or.inl (Or.inl h)
        · rcases List.mem_cons.mp hr' with rfl | hr'
          · rw [hrp] at hv
            simp only [Option.some.injEq, Prod.mk.injEq] at hv
            exact Or.inl (Or.inr hv.1.symm)
          · exact Or.inr ⟨r', hr', v, hv⟩

/-! ## Claim theorems -/

/-- C1: two-phase video flow — the metadata phase marks the document as
needing a transcript and its Markdown contains the placeholder; the
continuation removes the placeholder by literal first-occurrence match
(appending the block unchanged when there is no match), the final
Markdown contains a Transcript section on success, and on a failed or
timed-out fetch it contains the could-not-fetch error note and no
placeholder remnant. The hypotheses say that the resolved metadata text
does not itself produce an occurrence of the placeholder before the
terminal one. -/
theorem C1_two_phase_video_flow (meta : Option VideoMeta) (url : Str)
    (items : List TranscriptItem)
    (h1 : noMatchWithin transcriptPlaceholder
      (videoHeader (resolvedTitle meta url) (resolvedChannel meta) url (resolvedDesc meta))
      transcriptPlaceholder = true)
    (h2 : noMatchWithin transcriptPlaceholder
      (videoHeader (resolvedTitle meta url) (resolvedChannel meta) url (resolvedDesc meta))
      (transcriptBlock none) = true) :
    (videoMetadataPhase meta url).needsTranscript = true ∧
    strHas transcriptPlaceholder (videoMetadataPhase meta url).markdown = true ∧
    (∀ m b, strHas transcriptPlaceholder m = false → updateMarkdown m b = m ++ b) ∧
    updateMarkdown (videoMetadataPhase meta url).markdown (transcriptBlock (some items)) =
      videoHeader (resolvedTitle meta url) (resolvedChannel meta) url (resolvedDesc meta)
        ++ transcriptBlock (some items) ∧
    strHas "## Transcript".data
      (updateMarkdown (videoMetadataPhase meta url).markdown
        (transcriptBlock (some items))) = true ∧
    strHas "Could not fetch transcript".data
      (updateMarkdown (videoMetadataPhase meta url).markdown (transcriptBlock none)) = true ∧
    strHas transcriptPlaceholder
      (updateMarkdown (videoMetadataPhase meta url).markdown (transcriptBlock none)) = false := by
  set hdr := videoHeader (resolvedTitle meta url) (resolvedChannel meta) url (resolvedDesc meta)
    with hhdr
  have hmark : (videoMetadataPhase meta url).markdown = hdr ++ transcriptPlaceholder := rfl
  have hupd : ∀ b, updateMarkdown (hdr ++ transcriptPlaceholder) b = hdr ++ b := by
    intro b
    unfold updateMarkdown
    rw [replaceFirst_append_of_noMatch [] h1]
    simp
  refine ⟨rfl, ?_, ?_, ?_, ?_, ?_, ?_⟩
  · rw [hmark]
    exact strHas_append_right hdr (strHas_self _)
  · intro m b hm
    unfold updateMarkdown
    rw [replaceFirst_of_not_has [] hm]
  · rw [hmark, hupd]
  · rw [hmark, hupd]
    refine strHas_append_right hdr ?_
    show strHas "## Transcript".data
      ("\n\n## Transcript\n\n".data
        ++ items.foldl (fun acc it => acc ++ transcriptLine it) []) = true
    exact strHas_append_left _ (by decide)
  · rw [hmark, hupd]
    exact strHas_append_right hdr (by decide)
  · rw [hmark, hupd]
    exact strHas_append_eq_false h2 (by decide)

/-- C1 witness: concrete metadata, URL and transcript instantiating the
two-phase theorem. -/
theorem C1_witness :
    (videoMetadataPhase (some ⟨"Title".data, "Chan".data, "Desc".data⟩)
      "https://youtu.be/abc".data).needsTranscript = true ∧
    strHas transcriptPlaceholder
      (videoMetadataPhase (some ⟨"Title".data, "Chan".data, "Desc".data⟩)
        "https://youtu.be/abc".data).markdown = true ∧
    strHas transcriptPlaceholder
      (updateMarkdown
        (videoMetadataPhase (some ⟨"Title".data, "Chan".data, "Desc".data⟩)
          "https://youtu.be/abc".data).markdown
        (transcriptBlock none)) = false := by
  have h := C1_two_phase_video_flow (some ⟨"Title".data, "Chan".data, "Desc".data⟩)
    "https://youtu.be/abc".data [] (by decide) (by decide)
  exact ⟨h.1, h.2.1, h.2.2.2.2.2.2⟩

/-- C2: for every resolver and anchor sequence, link extraction returns
at most 100 entries and no two entries share the same resolved absolute
URL. -/
theorem C2_link_cap_and_dedup (resolve : Str → Option Str) (anchors : List Anchor) :
    (extractLinks resolve anchors).length ≤ 100 ∧
      ((extractLinks resolve anchors).map LinkEntry.href).Nodup :=
  extractLinksGo_inv resolve anchors [] [] (by simp) (by simp) (by simp)

/-- C3: evaluation at the failing input — an anchor whose raw href is the
fragment-only target hash-section (it starts with the hash character, as
the first conjunct records) is not excluded: resolved against the page
base it yields an entry, because the handler applies its startsWith hash
test to the resolved absolute URL, which always carries the scheme. -/
theorem C3_fragment_href_not_excluded :
    strStarts "#".data "#section".data = true ∧
    extractLinks exFragResolve [⟨"#section".data, "Intro".data⟩] =
      [⟨"Intro".data, "https://example.com/page#section".data⟩] := by
  decide

/-- C4: counterexample — the unauthenticated processor handler performs
no URL-format validation: the url string "not a url", which no URL parser
accepts, passes the validation prologue, and the request proceeds to the
fetch, whose failure surfaces as a 422 scrape error rather than a 400
validation failure. -/
theorem C4_processor_skips_url_validation :
    processorCheck (some "not a url".data) = ReqCheck.accepted ∧
    processorPOST (some "not a url".data) false true none = 422 := by
  decide

/-- C4 (amended): the process handler rejects a nonempty url string that
the URL constructor does not accept with a 400 invalid-format validation
failure before any fetch; the processor handler checks only presence. -/
theorem C4_process_rejects_bad_url (parseOk : Str → Bool) (u : Str)
    (hne : u ≠ []) (hbad : parseOk u = false) :
    processCheck parseOk (some u) = ReqCheck.reject 400 "Invalid URL format".data := by
  simp [processCheck, hne, hbad]

/-- C4 witness: the amended validation theorem at a concrete rejected
url. -/
theorem C4_witness :
    processCheck (fun _ => false) (some "not a url".data) =
      ReqCheck.reject 400 "Invalid URL format".data :=
  C4_process_rejects_bad_url (fun _ => false) "not a url".data (by decide) rfl

/-- C5: when the readability parse yields no article or empty content,
the authenticated processor handler returns a 422 error and the
persistence create call is never reached. -/
theorem C5_extraction_failure_not_persisted (c : ProcessorCtx) (u : UserCtx) (url : Str)
    (hu : c.user = some u) (hlim : u.isPro = true ∨ c.docCount < 20)
    (hurl : c.url = some url) (hne : url ≠ []) (hyt : isYoutubeUrl url = false)
    (hf : c.fetchFailed = false)
    (ha : c.article = none ∨ ∃ a, c.article = some a ∧ a.content = []) :
    part001POST c = ⟨422, false, false⟩ := by
  have hlim' : ¬(u.isPro = false ∧ c.docCount ≥ 20) := by
    rcases hlim with h | h
    · simp [h]
    · intro hc
      omega
  rcases ha with h | ⟨a, h, hc⟩
  · simp [part001POST, hu, hlim', hurl, hne, hyt, hf, h]
  · simp [part001POST, hu, hlim', hurl, hne, hyt, hf, h, hc]

/-- C5 witness: a concrete request on which the parse yields an article
with empty content. -/
theorem C5_witness :
    part001POST ⟨some ⟨false⟩, 3, some "https://example.com/a".data, false, false,
      some ⟨"t".data, [], "x".data, "s".data⟩, true⟩ = ⟨422, false, false⟩ :=
  C5_extraction_failure_not_persisted _ ⟨false⟩ "https://example.com/a".data rfl
    (Or.inr (by norm_num)) rfl (by decide) (by decide) rfl
    (Or.inr ⟨⟨"t".data, [], "x".data, "s".data⟩, rfl, rfl⟩)

/-- C6: link and image extraction are total functions of their inputs,
and an href or src on which the URL constructor fails only skips that
element: image extraction returns exactly the entries of the resolvable
imgs, and removing an unresolvable anchor from the document leaves the
extracted links unchanged. -/
theorem C6_extraction_never_throws (resolve : Str → Option Str) :
    (∀ imgs, extractImages resolve imgs = imgs.filterMap (imageEntry resolve)) ∧
    (∀ (xs ys : List Anchor) (a : Anchor), resolve a.href = none →
      extractLinks resolve (xs ++ a :: ys) = extractLinks resolve (xs ++ ys)) := by
  constructor
  · intro imgs
    simpa [extractImages] using extractImagesGo_eq resolve imgs []
  · intro xs ys a h
    exact extractLinksGo_skip_middle resolve h ys xs [] []

/-- C6 witness: a resolver that fails on everything skips the only anchor
and the only image. -/
theorem C6_witness :
    extractLinks (fun _ => none) ([] ++ ⟨"bad".data, "t".data⟩ :: []) =
      extractLinks (fun _ => none) ([] ++ []) ∧
    extractImages (fun _ => none) [⟨"s.png".data, none⟩] =
      [ImgElem.mk "s.png".data none].filterMap (imageEntry fun _ => none) :=
  ⟨(C6_extraction_never_throws fun _ => none).2 [] [] ⟨"bad".data, "t".data⟩ rfl,
    (C6_extraction_never_throws fun _ => none).1 [⟨"s.png".data, none⟩]⟩

/-- C7: a key appears in the infobox map exactly when some row of the
first infobox table contributes it, that is, has both cells present with
nonempty trimmed text; on the five-row example with three empty values
the map holds exactly the two complete rows. -/
theorem C7_infobox_complete_rows :
    (∀ (rows : List InfoRow) (k : Str),
      (k ∈ (infoboxData rows).map Prod.fst) ↔ ∃ r ∈ rows, ∃ v, rowPair r = some (k, v)) ∧
    infoboxData
      [⟨some "Born".data, some "1990".data⟩, ⟨some "Died".data, some "".data⟩,
        ⟨some "Country".data, some "France".data⟩, ⟨some "Spouse".data, some " ".data⟩,
        ⟨some "Children".data, some "".data⟩] =
      [("Born".data, "1990".data), ("Country".data, "France".data)] := by
  constructor
  · intro rows k
    simpa [infoboxData] using infobox_keys_aux rows [] k
  · decide

/-- C8: the image rule emits nothing when the src attribute is absent or
empty, and emits exactly the image token with the possibly empty alt text
when the src is nonempty. -/
theorem C8_img_rule (alt : Option Str) (s : Str) :
    imgRuleReplacement alt none = [] ∧
    imgRuleReplacement alt (some []) = [] ∧
    (s ≠ [] →
      imgRuleReplacement none (some s) = "![](".data ++ s ++ ")".data ∧
      imgRuleReplacement (some []) (some s) = "![](".data ++ s ++ ")".data ∧
      ∀ a : Str, imgRuleReplacement (some a) (some s) =
        "![".data ++ a ++ "](".data ++ s ++ ")".data) := by
  refine ⟨by simp [imgRuleReplacement], by simp [imgRuleReplacement], fun hs => ?_⟩
  have e : ("![".data : Str) ++ "](".data = "![](".data := rfl
  have hgen : ∀ a : Str, imgRuleReplacement (some a) (some s) =
      "![".data ++ a ++ "](".data ++ s ++ ")".data := by
    intro a
    simp [imgRuleReplacement, hs]
  have hempty : imgRuleReplacement (some []) (some s) = "![](".data ++ s ++ ")".data := by
    rw [hgen [], List.append_nil, e]
  have hnone : imgRuleReplacement none (some s) = "![](".data ++ s ++ ")".data := by
    have : imgRuleReplacement none (some s) = imgRuleReplacement (some []) (some s) := rfl
    rw [this, hempty]
  exact ⟨hnone, hempty, hgen⟩

/-- C8 witness: the rule at a concrete src with empty and nonempty alt. -/
theorem C8_witness :
    imgRuleReplacement none (some "x.png".data) =
      "![](".data ++ "x.png".data ++ ")".data ∧
    imgRuleReplacement (some "logo".data) (some "x.png".data) =
      "![".data ++ "logo".data ++ "](".data ++ "x.png".data ++ ")".data :=
  ⟨((C8_img_rule none "x.png".data).2.2 (by decide)).1,
    ((C8_img_rule (some "logo".data) "x.png".data).2.2 (by decide)).2.2 "logo".data⟩

/-- C9: rendered timestamps take minutes by integer division of the
millisecond offset and two-digit zero-padded seconds, joined by a colon
inside the bold line format; 125000 ms renders as 2:05 and 3000 ms as
0:03. -/
theorem C9_timestamp_format :
    transcriptStamp 125000 = "2:05".data ∧
    transcriptStamp 3000 = "0:03".data ∧
    ∀ (o : Nat) (t : Str),
      transcriptLine ⟨o, t⟩ =
        "**".data ++ (natDigits (o / 1000 / 60) ++ ":".data
          ++ padStart2 (natDigits (o / 1000 % 60))) ++ "** - ".data ++ t ++ "\n\n".data ∧
      (padStart2 (natDigits (o / 1000 % 60))).length = 2 := by
  refine ⟨by decide, by decide, fun o t => ⟨rfl, ?_⟩⟩
  have h60 : o / 1000 % 60 < 60 := Nat.mod_lt _ (by norm_num)
  have hall : ∀ n < 60, (padStart2 (natDigits n)).length = 2 := by decide
  exact hall _ h60

/-- C10: the transcript continuation is not idempotent — it removes only
the first placeholder occurrence and appends the freshly built block
unconditionally even when no placeholder is present, so a second
invocation on the already-updated document appends a second block. -/
theorem C10_continuation_not_idempotent (hdr b b' : Str)
    (h1 : noMatchWithin transcriptPlaceholder hdr transcriptPlaceholder = true)
    (h2 : noMatchWithin transcriptPlaceholder hdr b = true)
    (h3 : strHas transcriptPlaceholder b = false) :
    (∀ m, strHas transcriptPlaceholder m = false → updateMarkdown m b = m ++ b) ∧
    updateMarkdown (hdr ++ transcriptPlaceholder) b = hdr ++ b ∧
    updateMarkdown (updateMarkdown (hdr ++ transcriptPlaceholder) b) b' = (hdr ++ b) ++ b' ∧
    (b ≠ [] →
      updateMarkdown (updateMarkdown (hdr ++ transcriptPlaceholder) b) b ≠
        updateMarkdown (hdr ++ transcriptPlaceholder) b) := by
  have hApp : ∀ m (bb : Str), strHas transcriptPlaceholder m = false →
      updateMarkdown m bb = m ++ bb := by
    intro m bb hm
    unfold updateMarkdown
    rw [replaceFirst_of_not_has [] hm]
  have hFirst : updateMarkdown (hdr ++ transcriptPlaceholder) b = hdr ++ b := by
    unfold updateMarkdown
    rw [replaceFirst_append_of_noMatch [] h1]
    simp
  have hNoPh : strHas transcriptPlaceholder (hdr ++ b) = false := strHas_append_eq_false h2 h3
  have hSecond : ∀ bb : Str,
      updateMarkdown (updateMarkdown (hdr ++ transcriptPlaceholder) b) bb =
        (hdr ++ b) ++ bb := by
    intro bb
    rw [hFirst, hApp _ _ hNoPh]
  refine ⟨fun m => hApp m b, hFirst, hSecond b', fun hb => ?_⟩
  rw [hSecond b, hFirst]
  intro heq
  have hlen := congrArg List.length heq
  simp [List.length_append] at hlen
  exact hb hlen

/-- C10 witness: updating a plain stored document twice with the error
block appends it twice, so the results differ. -/
theorem C10_witness :
    updateMarkdown
        (updateMarkdown ("# T".data ++ transcriptPlaceholder) (transcriptBlock none))
        (transcriptBlock none) ≠
      updateMarkdown ("# T".data ++ transcriptPlaceholder) (transcriptBlock none) :=
  (C10_continuation_not_idempotent "# T".data (transcriptBlock none) (transcriptBlock none)
    (by decide) (by decide) (by decide)).2.2.2 (by decide)

end ContextPile
